import Mathlib

/-!
Verification of the conversation orchestration core of the mcprobe
repository: `src/mcprobe/orchestrator/orchestrator.py` together with the
data models it consumes (`src/mcprobe/models/conversation.py`,
`src/mcprobe/models/scenario.py`, `src/mcprobe/judge/judge.py`).

The Python code is shallowly embedded.  Pydantic models become structures
(Python `float` fields that no verified property touches are embedded as
`Nat` clock ticks; Python `int` becomes `Int`).  The orchestration loop of
`ConversationOrchestrator._run_conversation` becomes a fuel-indexed
recursion whose fuel is `max_turns`, which is exactly the iteration count
of the source's `while turn_count < max_turns` loop.  The three external
collaborators (agent under test, synthetic user, judge) are opaque
capabilities; since one run issues its calls sequentially and
deterministically, each collaborator is embedded as an oracle indexed by
the call count, whose result is either a value or a raised Python
exception (`Except PyException`).
-/

/-- Embedding of `mcprobe.models.conversation.ToolCall` (pydantic model).
`parameters` is `dict[str, Any]` in the source, embedded as an association
list; `result` is `Any`, embedded as `String`; `latency_ms`, `called_at`
and `responded_at` are `float`, embedded as `Nat`. -/
structure ToolCall where
  tool_name : String
  parameters : List (String × String)
  result : String
  latency_ms : Nat
  error : Option String := none
  called_at : Option Nat := none
  responded_at : Option Nat := none
deriving Repr, DecidableEq, Inhabited

/-- Embedding of `mcprobe.models.conversation.AgentResponse`.
`metadata` is `dict[str, Any]`, embedded as an association list. -/
structure AgentResponse where
  message : String
  tool_calls : List ToolCall := []
  is_complete : Bool := false
  metadata : List (String × String) := []
deriving Repr, DecidableEq, Inhabited

/-- Embedding of `mcprobe.models.conversation.UserResponse`. -/
structure UserResponse where
  message : String
  tokens_used : Int := 0
deriving Repr, DecidableEq, Inhabited

/-- Embedding of `mcprobe.models.conversation.ConversationTurn`.
`role` is a plain string in the source ("user" or "assistant");
`timestamp` is `time.time()`, embedded as a tick of a monotone counter. -/
structure ConversationTurn where
  role : String
  content : String
  tool_calls : List ToolCall := []
  timestamp : Nat
deriving Repr, DecidableEq, Inhabited

/-- Embedding of `mcprobe.models.conversation.TerminationReason`. -/
inductive TerminationReason where
  | criteria_met
  | max_turns
  | error
  | loop_detected
deriving Repr, DecidableEq, Inhabited

/-- Embedding of `mcprobe.models.conversation.ConversationResult`.
`duration_seconds` is a `float` wall-clock span in the source, embedded as
the final value of the tick counter. -/
structure ConversationResult where
  turns : List ConversationTurn
  final_answer : String
  total_tool_calls : List ToolCall
  total_tokens : Int := 0
  duration_seconds : Nat
  termination_reason : TerminationReason
deriving Repr, DecidableEq, Inhabited

/-- Embedding of `mcprobe.judge.judge.CriteriaCheckResult`:
the lightweight mid-conversation judge verdict. -/
structure CriteriaCheckResult where
  all_criteria_met : Bool
  correctness_results : List (String × Bool)
  brief_reasoning : String
deriving Repr, DecidableEq, Inhabited

/-- Embedding of `mcprobe.models.judgment.JudgmentResult`, restricted to the
fields the orchestrator-level claims can observe.  The orchestrator treats
the judgment as opaque: it only passes it back to the caller, so the float
`score`, the metric dictionaries and the suggestion lists are elided. -/
structure JudgmentResult where
  passed : Bool
  reasoning : String
deriving Repr, DecidableEq, Inhabited

/-- Embedding of `mcprobe.models.scenario.SyntheticUserConfig`, restricted
to the fields read by the orchestrator (`initial_query` feeds the synthetic
user, `max_turns` is the turn budget; pydantic constrains
`max_turns` with `ge=1, le=100`, carried as hypotheses where needed). -/
structure SyntheticUserConfig where
  persona : String
  initial_query : String
  max_turns : Nat := 10
deriving Repr, DecidableEq, Inhabited

/-- Embedding of `mcprobe.models.scenario.TestScenario`, restricted to the
fields the orchestrator reads (it consumes only `synthetic_user.max_turns`;
the evaluation configuration is interpreted solely by the judge). -/
structure TestScenario where
  name : String
  description : String
  synthetic_user : SyntheticUserConfig
  tags : List String := []
deriving Repr, DecidableEq, Inhabited

/-- A raised Python exception, embedded as its class name (`kind`) and its
string rendering (`msg`).  `mcprobe.exceptions.OrchestrationError` is the
kind "OrchestrationError"; the judge raises kind "JudgmentError". -/
structure PyException where
  kind : String
  msg : String
deriving Repr, DecidableEq, Inhabited

/-- The three external collaborators of the orchestrator, embedded as call
oracles.  One run issues its collaborator calls sequentially, so the
behaviour of each collaborator during a run is captured by the result of
its `i`-th call; a result of `Except.error e` embeds that call raising `e`.
`initial_query` is the result of `synthetic_user.get_initial_query()` and
`evaluate` the result of the single `judge.evaluate` call. -/
structure Collaborators where
  initial_query : String
  send_message : Nat → Except PyException AgentResponse
  check_criteria : Nat → Except PyException CriteriaCheckResult
  respond : Nat → Except PyException UserResponse
  evaluate : Except PyException JudgmentResult

/-- Embedding of `ConversationOrchestrator._detect_loop` (orchestrator.py
lines 192-215): fewer than 4 total turns is never a loop; otherwise collect
the contents of the user-role turns, require at least 3, and flag a loop
exactly when the last 3 are all identical (`len(set(recent)) == 1`,
embedded as the deduplicated window having length 1). -/
def detect_loop (turns : List ConversationTurn) : Bool :=
  let min_turns_for_loop := 4
  if turns.length < min_turns_for_loop then
    false
  else
    let loop_detection_window := 3
    let user_messages := (turns.filter (fun t => t.role == "user")).map (fun t => t.content)
    if user_messages.length < loop_detection_window then
      false
    else
      let recent_messages := user_messages.drop (user_messages.length - loop_detection_window)
      recent_messages.dedup.length == 1

/-- The wrap `raise OrchestrationError(f"Agent failed to respond: {e}")`
performed at orchestrator.py lines 116-118. -/
def wrapAgentError (e : PyException) : PyException :=
  { kind := "OrchestrationError", msg := "Agent failed to respond: " ++ e.msg }

/-- The wrap `raise OrchestrationError(f"Judge criteria check failed: {e}")`
performed at orchestrator.py lines 136-138. -/
def wrapJudgeError (e : PyException) : PyException :=
  { kind := "OrchestrationError", msg := "Judge criteria check failed: " ++ e.msg }

/-- The wrap `raise OrchestrationError(f"Synthetic user failed to respond: {e}")`
performed at orchestrator.py lines 149-151. -/
def wrapUserError (e : PyException) : PyException :=
  { kind := "OrchestrationError", msg := "Synthetic user failed to respond: " ++ e.msg }

/-- The mutable local state of `_run_conversation`: the accumulating turn
list, flattened tool-call list, token total, the `final_answer` variable,
and the pending user message.  The `_calls` counters are the number of
calls issued so far to each oracle (ghost instrumentation; in the source
they are implicit in control flow, with `agent_calls` equal to the loop's
`turn_count` after each `send_message`).  `clock` is the next value of the
embedded `time.time()` tick counter. -/
structure LoopState where
  turns : List ConversationTurn
  all_tool_calls : List ToolCall
  total_tokens : Int
  final_answer : String
  current_user_message : String
  agent_calls : Nat
  criteria_calls : Nat
  respond_calls : Nat
  clock : Nat
deriving Repr, DecidableEq, Inhabited

/-- Outcome of one pass through the `while` loop body: a raised exception,
a `break` with a termination reason, or falling through to the next
iteration. -/
inductive StepOutcome where
  | fail (e : PyException)
  | stop (s : LoopState) (reason : TerminationReason)
  | next (s : LoopState)
deriving Repr, DecidableEq

/-- One iteration of the loop body of `_run_conversation` (orchestrator.py
lines 110-171): call the agent (wrapping a raise), append the assistant
turn and extend the flattened tool-call list, consult the judge's
`check_criteria` (wrapping a raise), terminate with `criteria_met` when all
criteria hold, otherwise call `synthetic_user.respond` (wrapping a raise),
add its token usage, append the user turn, and terminate with
`loop_detected` when `_detect_loop` fires on the updated transcript. -/
def loopStep (c : Collaborators) (s : LoopState) : StepOutcome :=
  match c.send_message s.agent_calls with
  | Except.error e => StepOutcome.fail (wrapAgentError e)
  | Except.ok agent_response =>
    let s1 : LoopState := { s with
      turns := s.turns ++ [{ role := "assistant", content := agent_response.message,
                             tool_calls := agent_response.tool_calls, timestamp := s.clock }],
      all_tool_calls := s.all_tool_calls ++ agent_response.tool_calls,
      agent_calls := s.agent_calls + 1,
      clock := s.clock + 1 }
    match c.check_criteria s1.criteria_calls with
    | Except.error e => StepOutcome.fail (wrapJudgeError e)
    | Except.ok criteria_result =>
      let s2 : LoopState := { s1 with criteria_calls := s1.criteria_calls + 1 }
      if criteria_result.all_criteria_met then
        StepOutcome.stop { s2 with final_answer := agent_response.message }
          TerminationReason.criteria_met
      else
        match c.respond s2.respond_calls with
        | Except.error e => StepOutcome.fail (wrapUserError e)
        | Except.ok user_response =>
          let s3 : LoopState := { s2 with
            total_tokens := s2.total_tokens + user_response.tokens_used,
            turns := s2.turns ++ [{ role := "user", content := user_response.message,
                                    tool_calls := [], timestamp := s2.clock }],
            current_user_message := user_response.message,
            respond_calls := s2.respond_calls + 1,
            clock := s2.clock + 1 }
          if detect_loop s3.turns then
            StepOutcome.stop { s3 with final_answer := agent_response.message }
              TerminationReason.loop_detected
          else
            StepOutcome.next s3

/-- The `while turn_count < max_turns` loop of `_run_conversation`: the
fuel is the number of iterations still permitted by the budget.  Running
out of fuel leaves the `termination_reason` variable at its initial value
`TerminationReason.max_turns` (orchestrator.py line 91). -/
def runLoop (c : Collaborators) : Nat → LoopState → Except PyException (LoopState × TerminationReason)
  | 0, s => Except.ok (s, TerminationReason.max_turns)
  | Nat.succ remaining, s =>
    match loopStep c s with
    | StepOutcome.fail e => Except.error e
    | StepOutcome.stop s2 reason => Except.ok (s2, reason)
    | StepOutcome.next s2 => runLoop c remaining s2

/-- The state of `_run_conversation` just before the loop (orchestrator.py
lines 86-108): the transcript is seeded with one user turn carrying the
synthetic user's initial query.  Tick 0 is `start_time`, tick 1 the seed
turn's timestamp. -/
def initState (c : Collaborators) : LoopState :=
  { turns := [{ role := "user", content := c.initial_query, tool_calls := [], timestamp := 1 }],
    all_tool_calls := [],
    total_tokens := 0,
    final_answer := "",
    current_user_message := c.initial_query,
    agent_calls := 0,
    criteria_calls := 0,
    respond_calls := 0,
    clock := 2 }

/-- The loop phase of `_run_conversation` on a scenario: run the loop from
the seeded state with fuel `scenario.synthetic_user.max_turns`. -/
def runConversationAux (c : Collaborators) (scenario : TestScenario) :
    Except PyException (LoopState × TerminationReason) :=
  runLoop c scenario.synthetic_user.max_turns (initState c)

/-- Embedding of `ConversationOrchestrator._run_conversation`
(orchestrator.py lines 70-190): run the loop, then, when the loop ended
with the budget exhausted and the transcript is nonempty, search the
transcript backwards for the most recent assistant turn and take its
content as the final answer; package everything as a `ConversationResult`. -/
def run_conversation (c : Collaborators) (scenario : TestScenario) :
    Except PyException ConversationResult :=
  match runConversationAux c scenario with
  | Except.error e => Except.error e
  | Except.ok (s, reason) =>
    let final_answer :=
      if reason = TerminationReason.max_turns ∧ s.turns ≠ [] then
        match s.turns.reverse.find? (fun t => t.role == "assistant") with
        | some t => t.content
        | none => s.final_answer
      else
        s.final_answer
    Except.ok
      { turns := s.turns,
        final_answer := final_answer,
        total_tool_calls := s.all_tool_calls,
        total_tokens := s.total_tokens,
        duration_seconds := s.clock,
        termination_reason := reason }

/-- Embedding of `ConversationOrchestrator.run` (orchestrator.py lines
46-68): reset both collaborators (a pure no-op on the oracle embedding),
run the conversation, then call `judge.evaluate` exactly once.  The
`evaluate` call is issued outside any `try` block, so an exception it
raises propagates to the caller unwrapped. -/
def run (c : Collaborators) (scenario : TestScenario) :
    Except PyException (ConversationResult × JudgmentResult) :=
  match run_conversation c scenario with
  | Except.error e => Except.error e
  | Except.ok conversation_result =>
    match c.evaluate with
    | Except.error e => Except.error e
    | Except.ok judgment_result => Except.ok (conversation_result, judgment_result)

/-- The role the orchestrator assigns to the turn at position `i` of a
transcript it builds: user turns at even positions, assistant turns at odd
positions. -/
def roleAt (i : Nat) : String :=
  if i % 2 = 0 then "user" else "assistant"

/-- The transcript slice `[t.content for t in turns if t.role == "user"]`
computed by `_detect_loop`. -/
def userMessages (turns : List ConversationTurn) : List String :=
  (turns.filter (fun t => t.role == "user")).map (fun t => t.content)

/-- `alternatingRoles l n` holds when the turns of `l` carry the roles
`roleAt n, roleAt (n+1), ...`: starting from an even `n`, user and
assistant turns strictly alternate beginning with a user turn. -/
def alternatingRoles : List ConversationTurn → Nat → Prop
  | [], _ => True
  | t :: ts, i => t.role = roleAt i ∧ alternatingRoles ts (i + 1)

/-- The concatenation, in turn order, of the `tool_calls` lists of the
assistant turns of a transcript. -/
def assistantToolCalls (l : List ConversationTurn) : List ToolCall :=
  ((l.filter (fun t => t.role == "assistant")).map (fun t => t.tool_calls)).flatten

/-- The number of assistant turns of a transcript; each one records exactly
one `agent.send_message` call. -/
def assistantCount (l : List ConversationTurn) : Nat :=
  (l.filter (fun t => t.role == "assistant")).length

/-- Sum of the `tokens_used` reported by the first `n` calls of the
synthetic-user `respond` oracle (a raising call contributes nothing; in a
completed run every counted call succeeded). -/
def tokenSum (c : Collaborators) (n : Nat) : Int :=
  ((List.range n).map (fun i =>
    match c.respond i with
    | Except.ok ur => ur.tokens_used
    | Except.error _ => 0)).sum

/-- The assistant turn recorded for an agent reply at a given tick. -/
def agentTurn (ar : AgentResponse) (ts : Nat) : ConversationTurn :=
  { role := "assistant", content := ar.message, tool_calls := ar.tool_calls, timestamp := ts }

/-- The user turn recorded for a synthetic-user reply at a given tick. -/
def userTurn (ur : UserResponse) (ts : Nat) : ConversationTurn :=
  { role := "user", content := ur.message, tool_calls := [], timestamp := ts }

/-- State after an iteration that breaks with `criteria_met`: the assistant
turn was appended, its tool calls flattened in, the criteria check counted,
and `final_answer` set to the agent's reply. -/
def stepCrit (s : LoopState) (ar : AgentResponse) : LoopState :=
  { s with
    turns := s.turns ++ [agentTurn ar s.clock],
    all_tool_calls := s.all_tool_calls ++ ar.tool_calls,
    agent_calls := s.agent_calls + 1,
    criteria_calls := s.criteria_calls + 1,
    final_answer := ar.message,
    clock := s.clock + 1 }

/-- State after a full iteration that falls through to the next one: the
assistant turn and the follow-up user turn were appended, tool calls
flattened in, and the user's token usage accumulated. -/
def stepNext (s : LoopState) (ar : AgentResponse) (ur : UserResponse) : LoopState :=
  { s with
    turns := s.turns ++ [agentTurn ar s.clock] ++ [userTurn ur (s.clock + 1)],
    all_tool_calls := s.all_tool_calls ++ ar.tool_calls,
    total_tokens := s.total_tokens + ur.tokens_used,
    current_user_message := ur.message,
    agent_calls := s.agent_calls + 1,
    criteria_calls := s.criteria_calls + 1,
    respond_calls := s.respond_calls + 1,
    clock := s.clock + 1 + 1 }

/-- State after an iteration that breaks with `loop_detected`: as
`stepNext`, but `final_answer` is set to the agent's reply. -/
def stepLoopDet (s : LoopState) (ar : AgentResponse) (ur : UserResponse) : LoopState :=
  { stepNext s ar ur with final_answer := ar.message }

/-- Invariant of the loop state at the top of each iteration (and after a
`loop_detected` break): one criteria check and one user reply per agent
call so far, a transcript of strictly alternating roles that starts with
the seed user turn and ends with a user turn, tool calls carried only by
assistant turns and flattened in turn order, and the token total equal to
the sum over the `respond` calls made, all of which succeeded. -/
structure LoopInv (c : Collaborators) (s : LoopState) : Prop where
  agent_eq : s.agent_calls = s.respond_calls
  criteria_eq : s.criteria_calls = s.respond_calls
  len_eq : s.turns.length = 2 * s.respond_calls + 1
  alt : alternatingRoles s.turns 0
  user_tc : ∀ t ∈ s.turns, t.role = "user" → t.tool_calls = []
  tc_eq : s.all_tool_calls = assistantToolCalls s.turns
  acount : assistantCount s.turns = s.agent_calls
  tok_eq : s.total_tokens = tokenSum c s.respond_calls
  resp_ok : ∀ i, i < s.respond_calls → ∃ ur, c.respond i = Except.ok ur

/-- Invariant of the loop state after a `criteria_met` break: the final
assistant turn was appended without a matching user reply. -/
structure CritInv (c : Collaborators) (s : LoopState) : Prop where
  agent_eq : s.agent_calls = s.respond_calls + 1
  criteria_eq : s.criteria_calls = s.respond_calls + 1
  len_eq : s.turns.length = 2 * s.respond_calls + 2
  alt : alternatingRoles s.turns 0
  user_tc : ∀ t ∈ s.turns, t.role = "user" → t.tool_calls = []
  tc_eq : s.all_tool_calls = assistantToolCalls s.turns
  acount : assistantCount s.turns = s.agent_calls
  tok_eq : s.total_tokens = tokenSum c s.respond_calls
  resp_ok : ∀ i, i < s.respond_calls → ∃ ur, c.respond i = Except.ok ur

/-- Project a conversation out of a non-raising orchestration (defaults on
a raise; used only to name concrete evaluation results). -/
def getOkResult (x : Except PyException ConversationResult) : ConversationResult :=
  match x with
  | Except.ok r => r
  | Except.error _ => default

/-- Project the final loop state out of a non-raising loop run. -/
def getOkState (x : Except PyException (LoopState × TerminationReason)) : LoopState :=
  match x with
  | Except.ok p => p.1
  | Except.error _ => default

/-- Example tool invocation used by the concrete collaborator setups. -/
def exToolCall : ToolCall :=
  { tool_name := "search", parameters := [("q", "v")], result := "found", latency_ms := 5 }

/-- Concrete collaborators whose judge never reports the criteria met and
whose synthetic user varies its follow-ups: the run exhausts the budget. -/
def cEx : Collaborators :=
  { initial_query := "hello",
    send_message := fun i =>
      Except.ok { message := if i = 0 then "a0" else "a1", tool_calls := [exToolCall] },
    check_criteria := fun _ =>
      Except.ok { all_criteria_met := false, correctness_results := [], brief_reasoning := "not yet" },
    respond := fun i =>
      Except.ok { message := if i = 0 then "u1" else "u2", tokens_used := 10 },
    evaluate := Except.ok { passed := false, reasoning := "incomplete" } }

/-- Scenario with a turn budget of 2 for the concrete runs. -/
def scEx : TestScenario :=
  { name := "ex", description := "budget run",
    synthetic_user := { persona := "dev", initial_query := "hello", max_turns := 2 } }

/-- The conversation produced by `cEx` on `scEx`. -/
def resEx : ConversationResult := getOkResult (run_conversation cEx scEx)

/-- The final loop state of `cEx` on `scEx`. -/
def sEx : LoopState := getOkState (runConversationAux cEx scEx)

/-- Concrete collaborators whose judge accepts after the first agent
turn. -/
def cMet : Collaborators :=
  { initial_query := "q",
    send_message := fun _ => Except.ok { message := "the answer" },
    check_criteria := fun _ =>
      Except.ok { all_criteria_met := true, correctness_results := [("c", true)], brief_reasoning := "done" },
    respond := fun _ => Except.ok { message := "unused", tokens_used := 7 },
    evaluate := Except.ok { passed := true, reasoning := "good" } }

/-- Scenario with a turn budget of 5 for the early-termination run. -/
def scMet : TestScenario :=
  { name := "met", description := "early stop",
    synthetic_user := { persona := "dev", initial_query := "q", max_turns := 5 } }

/-- Collaborators as `cMet` except that the final `judge.evaluate` call
raises a `JudgmentError`. -/
def cEvalFail : Collaborators :=
  { cMet with evaluate := Except.error { kind := "JudgmentError", msg := "judge crashed" } }

/-- A transcript of three user turns with identical content (no assistant
turns): three user messages, all equal, but only three total turns. -/
def threeIdenticalUserTurns : List ConversationTurn :=
  [{ role := "user", content := "x", timestamp := 0 },
   { role := "user", content := "x", timestamp := 0 },
   { role := "user", content := "x", timestamp := 0 }]

theorem roleAt_even {i : Nat} (h : i % 2 = 0) : roleAt i = "user" := by
  simp [roleAt, h]

theorem roleAt_odd {i : Nat} (h : i % 2 = 1) : roleAt i = "assistant" := by
  simp [roleAt, h]

theorem alternatingRoles_nil (n : Nat) : alternatingRoles [] n := trivial

theorem alternatingRoles_cons {t : ConversationTurn} {ts : List ConversationTurn} {n : Nat} :
    alternatingRoles (t :: ts) n ↔ t.role = roleAt n ∧ alternatingRoles ts (n + 1) :=
  Iff.rfl

theorem alternatingRoles_append {l l2 : List ConversationTurn} {n : Nat}
    (h1 : alternatingRoles l n) (h2 : alternatingRoles l2 (n + l.length)) :
    alternatingRoles (l ++ l2) n := by
  induction l generalizing n with
  | nil => simpa using h2
  | cons t ts ih =>
    obtain ⟨ht, hts⟩ := h1
    refine ⟨ht, ih hts ?_⟩
    have : n + 1 + ts.length = n + (ts.length + 1) := by omega
    rw [this]
    simpa using h2

theorem alternatingRoles_get {l : List ConversationTurn} {n : Nat}
    (h : alternatingRoles l n) :
    ∀ (i : Nat) (hi : i < l.length), (l.get ⟨i, hi⟩).role = roleAt (n + i) := by
  induction l generalizing n with
  | nil => intro i hi; simp at hi
  | cons t ts ih =>
    obtain ⟨ht, hts⟩ := h
    intro i hi
    cases i with
    | zero => simpa using ht
    | succ j =>
      have hj : j < ts.length := by simpa using hi
      have := ih hts j hj
      have harith : n + 1 + j = n + (j + 1) := by omega
      rw [harith] at this
      simpa using this

theorem assistantToolCalls_append (l l2 : List ConversationTurn) :
    assistantToolCalls (l ++ l2) = assistantToolCalls l ++ assistantToolCalls l2 := by
  simp [assistantToolCalls, List.filter_append]

theorem assistantToolCalls_assistant {t : ConversationTurn} (h : t.role = "assistant") :
    assistantToolCalls [t] = t.tool_calls := by
  simp [assistantToolCalls, List.filter, h]

theorem assistantToolCalls_user {t : ConversationTurn} (h : t.role = "user") :
    assistantToolCalls [t] = [] := by
  have hne : (("user" : String) == "assistant") = false := by decide
  simp [assistantToolCalls, List.filter, h, hne]

theorem assistantCount_append (l l2 : List ConversationTurn) :
    assistantCount (l ++ l2) = assistantCount l + assistantCount l2 := by
  simp [assistantCount, List.filter_append]

theorem assistantCount_assistant {t : ConversationTurn} (h : t.role = "assistant") :
    assistantCount [t] = 1 := by
  simp [assistantCount, List.filter, h]

theorem assistantCount_user {t : ConversationTurn} (h : t.role = "user") :
    assistantCount [t] = 0 := by
  have hne : (("user" : String) == "assistant") = false := by decide
  simp [assistantCount, List.filter, h, hne]

theorem tokenSum_succ_ok {c : Collaborators} {n : Nat} {ur : UserResponse}
    (h : c.respond n = Except.ok ur) :
    tokenSum c (n + 1) = tokenSum c n + ur.tokens_used := by
  simp [tokenSum, List.range_succ, h]

theorem loopStep_cases (c : Collaborators) (s : LoopState) :
    (∃ e0, c.send_message s.agent_calls = Except.error e0 ∧
      loopStep c s = StepOutcome.fail (wrapAgentError e0)) ∨
    (∃ ar e0, c.send_message s.agent_calls = Except.ok ar ∧
      c.check_criteria s.criteria_calls = Except.error e0 ∧
      loopStep c s = StepOutcome.fail (wrapJudgeError e0)) ∨
    (∃ ar cr, c.send_message s.agent_calls = Except.ok ar ∧
      c.check_criteria s.criteria_calls = Except.ok cr ∧ cr.all_criteria_met = true ∧
      loopStep c s = StepOutcome.stop (stepCrit s ar) TerminationReason.criteria_met) ∨
    (∃ ar cr e0, c.send_message s.agent_calls = Except.ok ar ∧
      c.check_criteria s.criteria_calls = Except.ok cr ∧ cr.all_criteria_met = false ∧
      c.respond s.respond_calls = Except.error e0 ∧
      loopStep c s = StepOutcome.fail (wrapUserError e0)) ∨
    (∃ ar cr ur, c.send_message s.agent_calls = Except.ok ar ∧
      c.check_criteria s.criteria_calls = Except.ok cr ∧ cr.all_criteria_met = false ∧
      c.respond s.respond_calls = Except.ok ur ∧
      detect_loop (stepNext s ar ur).turns = true ∧
      loopStep c s = StepOutcome.stop (stepLoopDet s ar ur) TerminationReason.loop_detected) ∨
    (∃ ar cr ur, c.send_message s.agent_calls = Except.ok ar ∧
      c.check_criteria s.criteria_calls = Except.ok cr ∧ cr.all_criteria_met = false ∧
      c.respond s.respond_calls = Except.ok ur ∧
      detect_loop (stepNext s ar ur).turns = false ∧
      loopStep c s = StepOutcome.next (stepNext s ar ur)) := by
  have hturnseq : ∀ (ar : AgentResponse) (ur : UserResponse), (stepNext s ar ur).turns
      = s.turns ++ [{ role := "assistant", content := ar.message,
                      tool_calls := ar.tool_calls, timestamp := s.clock }]
                ++ [{ role := "user", content := ur.message,
                      tool_calls := [], timestamp := s.clock + 1 }] := fun _ _ => rfl
  cases hsend : c.send_message s.agent_calls with
  | error e0 =>
    exact Or.inl ⟨e0, rfl, by simp [loopStep, hsend]⟩
  | ok ar =>
    cases hcrit : c.check_criteria s.criteria_calls with
    | error e0 =>
      exact Or.inr (Or.inl ⟨ar, e0, rfl, rfl, by simp [loopStep, hsend, hcrit]⟩)
    | ok cr =>
      cases hmet : cr.all_criteria_met with
      | true =>
        refine Or.inr (Or.inr (Or.inl ⟨ar, cr, rfl, rfl, hmet, ?_⟩))
        simp [loopStep, hsend, hcrit, hmet, stepCrit, agentTurn]
      | false =>
        cases hresp : c.respond s.respond_calls with
        | error e0 =>
          refine Or.inr (Or.inr (Or.inr (Or.inl ⟨ar, cr, e0, rfl, rfl, hmet, rfl, ?_⟩)))
          simp [loopStep, hsend, hcrit, hmet, hresp]
        | ok ur =>
          cases hdl : detect_loop (stepNext s ar ur).turns with
          | true =>
            refine Or.inr (Or.inr (Or.inr (Or.inr (Or.inl
              ⟨ar, cr, ur, rfl, rfl, hmet, rfl, hdl, ?_⟩))))
            have hdl2 := hdl
            rw [hturnseq ar ur] at hdl2
            simp only [List.append_assoc, List.singleton_append] at hdl2
            simp [loopStep, hsend, hcrit, hmet, hresp, hdl2, stepLoopDet, stepNext, agentTurn, userTurn]
          | false =>
            refine Or.inr (Or.inr (Or.inr (Or.inr (Or.inr
              ⟨ar, cr, ur, rfl, rfl, hmet, rfl, hdl, ?_⟩))))
            have hdl2 := hdl
            rw [hturnseq ar ur] at hdl2
            simp only [List.append_assoc, List.singleton_append] at hdl2
            simp [loopStep, hsend, hcrit, hmet, hresp, hdl2, stepNext, agentTurn, userTurn]

theorem agentTurn_role (ar : AgentResponse) (ts : Nat) : (agentTurn ar ts).role = "assistant" :=
  rfl

theorem userTurn_role (ur : UserResponse) (ts : Nat) : (userTurn ur ts).role = "user" :=
  rfl

theorem alternatingRoles_snoc_assistant {l : List ConversationTurn}
    (halt : alternatingRoles l 0) (hodd : l.length % 2 = 1)
    {a : ConversationTurn} (ha : a.role = "assistant") :
    alternatingRoles (l ++ [a]) 0 := by
  refine alternatingRoles_append halt ⟨?_, trivial⟩
  rw [ha]
  exact (roleAt_odd (by omega)).symm

theorem alternatingRoles_snoc_user {l : List ConversationTurn}
    (halt : alternatingRoles l 0) (heven : l.length % 2 = 0)
    {u : ConversationTurn} (hu : u.role = "user") :
    alternatingRoles (l ++ [u]) 0 := by
  refine alternatingRoles_append halt ⟨?_, trivial⟩
  rw [hu]
  exact (roleAt_even (by omega)).symm

theorem stepNext_inv {c : Collaborators} {s : LoopState} (ar : AgentResponse) {ur : UserResponse}
    (hinv : LoopInv c s) (hresp : c.respond s.respond_calls = Except.ok ur) :
    LoopInv c (stepNext s ar ur) := by
  obtain ⟨hag, hcr, hlen, halt, hutc, htc, hac, htok, hrok⟩ := hinv
  have halt1 : alternatingRoles (s.turns ++ [agentTurn ar s.clock]) 0 :=
    alternatingRoles_snoc_assistant halt (by omega) (agentTurn_role ar s.clock)
  have halt2 : alternatingRoles
      (s.turns ++ [agentTurn ar s.clock] ++ [userTurn ur (s.clock + 1)]) 0 :=
    alternatingRoles_snoc_user halt1 (by simp; omega) (userTurn_role ur (s.clock + 1))
  refine ⟨?_, ?_, ?_, halt2, ?_, ?_, ?_, ?_, ?_⟩
  · show s.agent_calls + 1 = s.respond_calls + 1
    omega
  · show s.criteria_calls + 1 = s.respond_calls + 1
    omega
  · show (s.turns ++ [agentTurn ar s.clock] ++ [userTurn ur (s.clock + 1)]).length
      = 2 * (s.respond_calls + 1) + 1
    simp
    omega
  · intro t ht hrole
    rcases List.mem_append.mp ht with ht1 | ht1
    · rcases List.mem_append.mp ht1 with ht2 | ht2
      · exact hutc t ht2 hrole
      · rw [List.mem_singleton.mp ht2, agentTurn_role] at hrole
        exact absurd hrole (by decide)
    · rw [List.mem_singleton.mp ht1]
      rfl
  · show s.all_tool_calls ++ ar.tool_calls
      = assistantToolCalls (s.turns ++ [agentTurn ar s.clock] ++ [userTurn ur (s.clock + 1)])
    rw [assistantToolCalls_append, assistantToolCalls_append,
      assistantToolCalls_assistant (agentTurn_role ar s.clock),
      assistantToolCalls_user (userTurn_role ur (s.clock + 1)), htc]
    simp [agentTurn]
  · show assistantCount (s.turns ++ [agentTurn ar s.clock] ++ [userTurn ur (s.clock + 1)])
      = s.agent_calls + 1
    rw [assistantCount_append, assistantCount_append,
      assistantCount_assistant (agentTurn_role ar s.clock),
      assistantCount_user (userTurn_role ur (s.clock + 1))]
    omega
  · show s.total_tokens + ur.tokens_used = tokenSum c (s.respond_calls + 1)
    rw [tokenSum_succ_ok hresp, htok]
  · intro i hi
    rcases Nat.lt_succ_iff_lt_or_eq.mp hi with hi2 | hi2
    · exact hrok i hi2
    · subst hi2
      exact ⟨ur, hresp⟩

theorem stepCrit_inv {c : Collaborators} {s : LoopState} (ar : AgentResponse)
    (hinv : LoopInv c s) : CritInv c (stepCrit s ar) := by
  obtain ⟨hag, hcr, hlen, halt, hutc, htc, hac, htok, hrok⟩ := hinv
  have halt1 : alternatingRoles (s.turns ++ [agentTurn ar s.clock]) 0 :=
    alternatingRoles_snoc_assistant halt (by omega) (agentTurn_role ar s.clock)
  refine ⟨?_, ?_, ?_, halt1, ?_, ?_, ?_, htok, hrok⟩
  · show s.agent_calls + 1 = s.respond_calls + 1
    omega
  · show s.criteria_calls + 1 = s.respond_calls + 1
    omega
  · show (s.turns ++ [agentTurn ar s.clock]).length = 2 * s.respond_calls + 2
    simp
    omega
  · intro t ht hrole
    rcases List.mem_append.mp ht with ht1 | ht1
    · exact hutc t ht1 hrole
    · rw [List.mem_singleton.mp ht1, agentTurn_role] at hrole
      exact absurd hrole (by decide)
  · show s.all_tool_calls ++ ar.tool_calls
      = assistantToolCalls (s.turns ++ [agentTurn ar s.clock])
    rw [assistantToolCalls_append,
      assistantToolCalls_assistant (agentTurn_role ar s.clock), htc]
    rfl
  · show assistantCount (s.turns ++ [agentTurn ar s.clock]) = s.agent_calls + 1
    rw [assistantCount_append, assistantCount_assistant (agentTurn_role ar s.clock)]
    omega

theorem stepLoopDet_inv {c : Collaborators} {s : LoopState} (ar : AgentResponse)
    {ur : UserResponse} (hinv : LoopInv c s)
    (hresp : c.respond s.respond_calls = Except.ok ur) :
    LoopInv c (stepLoopDet s ar ur) := by
  obtain ⟨h1, h2, h3, h4, h5, h6, h7, h8, h9⟩ := stepNext_inv ar hinv hresp
  exact ⟨h1, h2, h3, h4, h5, h6, h7, h8, h9⟩

theorem stepNext_turns_mono (s : LoopState) (ar : AgentResponse) (ur : UserResponse) :
    s.turns <+: (stepNext s ar ur).turns := by
  show s.turns <+: s.turns ++ [agentTurn ar s.clock] ++ [userTurn ur (s.clock + 1)]
  rw [List.append_assoc]
  exact List.prefix_append _ _

theorem stepCrit_turns_mono (s : LoopState) (ar : AgentResponse) :
    s.turns <+: (stepCrit s ar).turns :=
  List.prefix_append _ _

theorem stepLoopDet_turns_mono (s : LoopState) (ar : AgentResponse) (ur : UserResponse) :
    s.turns <+: (stepLoopDet s ar ur).turns :=
  stepNext_turns_mono s ar ur

theorem runLoop_ok_inv (c : Collaborators) :
    ∀ (n : Nat) (s s2 : LoopState) (r : TerminationReason),
      runLoop c n s = Except.ok (s2, r) → LoopInv c s →
      s.turns <+: s2.turns ∧
      s2.agent_calls ≤ s.respond_calls + n ∧
      (r = TerminationReason.max_turns →
        LoopInv c s2 ∧ s2.respond_calls = s.respond_calls + n) ∧
      (r = TerminationReason.loop_detected → LoopInv c s2) ∧
      (r = TerminationReason.criteria_met → CritInv c s2) := by
  intro n
  induction n with
  | zero =>
    intro s s2 r h hinv
    simp [runLoop] at h
    obtain ⟨rfl, rfl⟩ := h
    have hag := hinv.agent_eq
    refine ⟨List.prefix_refl _, by omega, ?_, ?_, ?_⟩
    · intro _
      exact ⟨hinv, by omega⟩
    · intro hr2
      exact absurd hr2 (by decide)
    · intro hr2
      exact absurd hr2 (by decide)
  | succ n ih =>
    intro s s2 r h hinv
    rw [runLoop] at h
    rcases loopStep_cases c s with
        ⟨e0, hs, heq⟩ | ⟨ar, e0, hs, hc2, heq⟩ | ⟨ar, cr, hs, hc2, hmet, heq⟩ |
        ⟨ar, cr, e0, hs, hc2, hmet, hr2, heq⟩ |
        ⟨ar, cr, ur, hs, hc2, hmet, hr2, hdl, heq⟩ |
        ⟨ar, cr, ur, hs, hc2, hmet, hr2, hdl, heq⟩
    · rw [heq] at h
      exact absurd h (by simp)
    · rw [heq] at h
      exact absurd h (by simp)
    · rw [heq] at h
      simp at h
      obtain ⟨rfl, rfl⟩ := h
      have hag := hinv.agent_eq
      refine ⟨stepCrit_turns_mono s ar, ?_, ?_, ?_, ?_⟩
      · show s.agent_calls + 1 ≤ s.respond_calls + (n + 1)
        omega
      · intro hr3
        exact absurd hr3 (by decide)
      · intro hr3
        exact absurd hr3 (by decide)
      · intro _
        exact stepCrit_inv ar hinv
    · rw [heq] at h
      exact absurd h (by simp)
    · rw [heq] at h
      simp at h
      obtain ⟨rfl, rfl⟩ := h
      have hag := hinv.agent_eq
      refine ⟨stepLoopDet_turns_mono s ar ur, ?_, ?_, ?_, ?_⟩
      · show s.agent_calls + 1 ≤ s.respond_calls + (n + 1)
        omega
      · intro hr3
        exact absurd hr3 (by decide)
      · intro _
        exact stepLoopDet_inv ar hinv hr2
      · intro hr3
        exact absurd hr3 (by decide)
    · rw [heq] at h
      simp only [] at h
      have hinv2 := stepNext_inv ar hinv hr2
      obtain ⟨hpre, hagb, hmax, hloop, hcritc⟩ := ih (stepNext s ar ur) s2 r h hinv2
      have hrc : (stepNext s ar ur).respond_calls = s.respond_calls + 1 := rfl
      refine ⟨(stepNext_turns_mono s ar ur).trans hpre, by omega, ?_, hloop, hcritc⟩
      intro hrr
      obtain ⟨hi2, hcount⟩ := hmax hrr
      exact ⟨hi2, by omega⟩

theorem runLoop_ok_reason (c : Collaborators) :
    ∀ (n : Nat) (s s2 : LoopState) (r : TerminationReason),
      runLoop c n s = Except.ok (s2, r) →
      r = TerminationReason.max_turns ∨ r = TerminationReason.criteria_met ∨
        r = TerminationReason.loop_detected := by
  intro n
  induction n with
  | zero =>
    intro s s2 r h
    simp [runLoop] at h
    exact Or.inl h.2.symm
  | succ n ih =>
    intro s s2 r h
    rw [runLoop] at h
    rcases loopStep_cases c s with
        ⟨e0, hs, heq⟩ | ⟨ar, e0, hs, hc2, heq⟩ | ⟨ar, cr, hs, hc2, hmet, heq⟩ |
        ⟨ar, cr, e0, hs, hc2, hmet, hr2, heq⟩ |
        ⟨ar, cr, ur, hs, hc2, hmet, hr2, hdl, heq⟩ |
        ⟨ar, cr, ur, hs, hc2, hmet, hr2, hdl, heq⟩
    · rw [heq] at h
      exact absurd h (by simp)
    · rw [heq] at h
      exact absurd h (by simp)
    · rw [heq] at h
      simp at h
      exact Or.inr (Or.inl h.2.symm)
    · rw [heq] at h
      exact absurd h (by simp)
    · rw [heq] at h
      simp at h
      exact Or.inr (Or.inr h.2.symm)
    · rw [heq] at h
      exact ih (stepNext s ar ur) s2 r h

theorem runLoop_never_met {c : Collaborators}
    (hnm : ∀ i cr, c.check_criteria i = Except.ok cr → cr.all_criteria_met = false) :
    ∀ (n : Nat) (s s2 : LoopState) (r : TerminationReason),
      runLoop c n s = Except.ok (s2, r) → r ≠ TerminationReason.criteria_met := by
  intro n
  induction n with
  | zero =>
    intro s s2 r h
    simp [runLoop] at h
    rw [← h.2]
    decide
  | succ n ih =>
    intro s s2 r h
    rw [runLoop] at h
    rcases loopStep_cases c s with
        ⟨e0, hs, heq⟩ | ⟨ar, e0, hs, hc2, heq⟩ | ⟨ar, cr, hs, hc2, hmet, heq⟩ |
        ⟨ar, cr, e0, hs, hc2, hmet, hr2, heq⟩ |
        ⟨ar, cr, ur, hs, hc2, hmet, hr2, hdl, heq⟩ |
        ⟨ar, cr, ur, hs, hc2, hmet, hr2, hdl, heq⟩
    · rw [heq] at h
      exact absurd h (by simp)
    · rw [heq] at h
      exact absurd h (by simp)
    · exact absurd (hnm _ _ hc2) (by simp [hmet])
    · rw [heq] at h
      exact absurd h (by simp)
    · rw [heq] at h
      simp at h
      rw [← h.2]
      decide
    · rw [heq] at h
      exact ih (stepNext s ar ur) s2 r h

theorem runLoop_error_classify (c : Collaborators) :
    ∀ (n : Nat) (s : LoopState) (e : PyException),
      runLoop c n s = Except.error e →
      (∃ e0 i, c.send_message i = Except.error e0 ∧ e = wrapAgentError e0) ∨
      (∃ e0 i, c.check_criteria i = Except.error e0 ∧ e = wrapJudgeError e0) ∨
      (∃ e0 i, c.respond i = Except.error e0 ∧ e = wrapUserError e0) := by
  intro n
  induction n with
  | zero =>
    intro s e h
    exact absurd h (by simp [runLoop])
  | succ n ih =>
    intro s e h
    rw [runLoop] at h
    rcases loopStep_cases c s with
        ⟨e0, hs, heq⟩ | ⟨ar, e0, hs, hc2, heq⟩ | ⟨ar, cr, hs, hc2, hmet, heq⟩ |
        ⟨ar, cr, e0, hs, hc2, hmet, hr2, heq⟩ |
        ⟨ar, cr, ur, hs, hc2, hmet, hr2, hdl, heq⟩ |
        ⟨ar, cr, ur, hs, hc2, hmet, hr2, hdl, heq⟩
    · rw [heq] at h
      simp at h
      exact Or.inl ⟨e0, s.agent_calls, hs, h.symm⟩
    · rw [heq] at h
      simp at h
      exact Or.inr (Or.inl ⟨e0, s.criteria_calls, hc2, h.symm⟩)
    · rw [heq] at h
      exact absurd h (by simp)
    · rw [heq] at h
      simp at h
      exact Or.inr (Or.inr ⟨e0, s.respond_calls, hr2, h.symm⟩)
    · rw [heq] at h
      exact absurd h (by simp)
    · rw [heq] at h
      exact ih (stepNext s ar ur) e h

theorem initState_inv (c : Collaborators) : LoopInv c (initState c) := by
  have hne : (("user" : String) == "assistant") = false := by decide
  refine ⟨rfl, rfl, rfl, ?_, ?_, ?_, ?_, ?_, ?_⟩
  · exact ⟨rfl, trivial⟩
  · intro t ht hrole
    rw [List.mem_singleton.mp ht]
  · show ([] : List ToolCall) = assistantToolCalls (initState c).turns
    simp [assistantToolCalls, initState, List.filter, hne]
  · show assistantCount (initState c).turns = 0
    simp [assistantCount, initState, List.filter, hne]
  · rfl
  · intro i hi
    exact absurd hi (Nat.not_lt_zero i)

theorem run_conversation_ok_elim {c : Collaborators} {sc : TestScenario}
    {res : ConversationResult} (h : run_conversation c sc = Except.ok res) :
    ∃ s2 r, runConversationAux c sc = Except.ok (s2, r) ∧
      res.turns = s2.turns ∧
      res.total_tool_calls = s2.all_tool_calls ∧
      res.total_tokens = s2.total_tokens ∧
      res.termination_reason = r ∧
      res.final_answer =
        (if r = TerminationReason.max_turns ∧ s2.turns ≠ [] then
          match s2.turns.reverse.find? (fun t => t.role == "assistant") with
          | some t => t.content
          | none => s2.final_answer
        else s2.final_answer) := by
  unfold run_conversation at h
  cases haux : runConversationAux c sc with
  | error e =>
    rw [haux] at h
    exact absurd h (by simp)
  | ok p =>
    obtain ⟨s2, r⟩ := p
    rw [haux] at h
    simp only [Except.ok.injEq] at h
    subst h
    exact ⟨s2, r, rfl, rfl, rfl, rfl, rfl, rfl⟩

theorem run_ok_elim {c : Collaborators} {sc : TestScenario}
    {cres : ConversationResult} {jres : JudgmentResult}
    (h : run c sc = Except.ok (cres, jres)) :
    run_conversation c sc = Except.ok cres ∧ c.evaluate = Except.ok jres := by
  unfold run at h
  cases hrc : run_conversation c sc with
  | error e =>
    rw [hrc] at h
    exact absurd h (by simp)
  | ok cr2 =>
    rw [hrc] at h
    cases heval : c.evaluate with
    | error e =>
      rw [heval] at h
      exact absurd h (by simp)
    | ok jr2 =>
      rw [heval] at h
      simp only [Except.ok.injEq, Prod.mk.injEq] at h
      obtain ⟨rfl, rfl⟩ := h
      exact ⟨rfl, rfl⟩

theorem run_error_elim {c : Collaborators} {sc : TestScenario} {e : PyException}
    (h : run c sc = Except.error e) :
    run_conversation c sc = Except.error e ∨
    (∃ cr2, run_conversation c sc = Except.ok cr2 ∧ c.evaluate = Except.error e) := by
  unfold run at h
  cases hrc : run_conversation c sc with
  | error e2 =>
    rw [hrc] at h
    simp only [Except.error.injEq] at h
    subst h
    exact Or.inl rfl
  | ok cr2 =>
    rw [hrc] at h
    cases heval : c.evaluate with
    | error e2 =>
      rw [heval] at h
      simp only [Except.error.injEq] at h
      subst h
      exact Or.inr ⟨cr2, rfl, rfl⟩
    | ok jr2 =>
      rw [heval] at h
      exact absurd h (by simp)

theorem dedup_length_one_iff_len3 (l : List String) (h : l.length = 3) :
    l.dedup.length = 1 ↔ ∃ m, l = [m, m, m] := by
  obtain ⟨a, b, c2, rfl⟩ : ∃ a b c2, l = [a, b, c2] := by
    cases l with
    | nil => simp at h
    | cons a t1 =>
      cases t1 with
      | nil => simp at h
      | cons b t2 =>
        cases t2 with
        | nil => simp at h
        | cons c2 t3 =>
          cases t3 with
          | nil => exact ⟨a, b, c2, rfl⟩
          | cons d t4 => simp at h
  constructor
  · intro hd
    by_cases hab : a = b
    · by_cases hbc : b = c2
      · subst hab
        subst hbc
        exact ⟨a, rfl⟩
      · exfalso
        subst hab
        rw [List.dedup_cons_of_mem (List.mem_cons_self a [c2])] at hd
        rw [List.dedup_cons_of_not_mem (by simp [hbc])] at hd
        rw [List.dedup_cons_of_not_mem (List.not_mem_nil c2), List.dedup_nil] at hd
        simp at hd
    · by_cases hac : a = c2
      · exfalso
        subst hac
        rw [List.dedup_cons_of_mem (by simp)] at hd
        rw [List.dedup_cons_of_not_mem
          (by simp only [List.mem_singleton]; exact fun h2 => hab h2.symm)] at hd
        rw [List.dedup_cons_of_not_mem (List.not_mem_nil a), List.dedup_nil] at hd
        simp at hd
      · exfalso
        rw [List.dedup_cons_of_not_mem (by simp [hab, hac])] at hd
        by_cases hbc : b = c2
        · subst hbc
          rw [List.dedup_cons_of_mem (by simp)] at hd
          rw [List.dedup_cons_of_not_mem (List.not_mem_nil b), List.dedup_nil] at hd
          simp at hd
        · rw [List.dedup_cons_of_not_mem (by simp [hbc])] at hd
          rw [List.dedup_cons_of_not_mem (List.not_mem_nil c2), List.dedup_nil] at hd
          simp at hd
  · rintro ⟨m, hm⟩
    obtain ⟨rfl, rfl, rfl⟩ : a = m ∧ b = m ∧ c2 = m := by simpa using hm
    rw [List.dedup_cons_of_mem (by simp), List.dedup_cons_of_mem (by simp),
      List.dedup_cons_of_not_mem (List.not_mem_nil _), List.dedup_nil]
    rfl

theorem detect_loop_eq (turns : List ConversationTurn) :
    detect_loop turns =
      if turns.length < 4 then false
      else if (userMessages turns).length < 3 then false
      else ((userMessages turns).drop ((userMessages turns).length - 3)).dedup.length == 1 :=
  rfl

theorem run_conversation_error_elim {c : Collaborators} {sc : TestScenario} {e : PyException}
    (h : run_conversation c sc = Except.error e) :
    runConversationAux c sc = Except.error e := by
  unfold run_conversation at h
  cases haux : runConversationAux c sc with
  | error e2 =>
    rw [haux] at h
    simp only [Except.error.injEq] at h
    rw [← h]
  | ok p =>
    obtain ⟨s2, r⟩ := p
    rw [haux] at h
    exact absurd h (by simp)

theorem runLoop_turns_mono (c : Collaborators) :
    ∀ (n : Nat) (s s2 : LoopState) (r : TerminationReason),
      runLoop c n s = Except.ok (s2, r) → s.turns <+: s2.turns := by
  intro n
  induction n with
  | zero =>
    intro s s2 r h
    simp [runLoop] at h
    rw [h.1]
  | succ n ih =>
    intro s s2 r h
    rw [runLoop] at h
    rcases loopStep_cases c s with
        ⟨e0, hs, heq⟩ | ⟨ar, e0, hs, hc2, heq⟩ | ⟨ar, cr, hs, hc2, hmet, heq⟩ |
        ⟨ar, cr, e0, hs, hc2, hmet, hr2, heq⟩ |
        ⟨ar, cr, ur, hs, hc2, hmet, hr2, hdl, heq⟩ |
        ⟨ar, cr, ur, hs, hc2, hmet, hr2, hdl, heq⟩
    · rw [heq] at h
      exact absurd h (by simp)
    · rw [heq] at h
      exact absurd h (by simp)
    · rw [heq] at h
      simp at h
      rw [← h.1]
      exact stepCrit_turns_mono s ar
    · rw [heq] at h
      exact absurd h (by simp)
    · rw [heq] at h
      simp at h
      rw [← h.1]
      exact stepLoopDet_turns_mono s ar ur
    · rw [heq] at h
      exact (stepNext_turns_mono s ar ur).trans (ih (stepNext s ar ur) s2 r h)

theorem runConversationAux_facts {c : Collaborators} {sc : TestScenario} {s2 : LoopState}
    {r : TerminationReason} (haux : runConversationAux c sc = Except.ok (s2, r)) :
    (initState c).turns <+: s2.turns ∧
    assistantCount s2.turns = s2.agent_calls ∧
    s2.agent_calls ≤ sc.synthetic_user.max_turns ∧
    alternatingRoles s2.turns 0 ∧
    (∀ t ∈ s2.turns, t.role = "user" → t.tool_calls = []) ∧
    s2.all_tool_calls = assistantToolCalls s2.turns ∧
    s2.total_tokens = tokenSum c s2.respond_calls ∧
    (∀ i, i < s2.respond_calls → ∃ ur, c.respond i = Except.ok ur) ∧
    (r = TerminationReason.max_turns →
      s2.respond_calls = sc.synthetic_user.max_turns ∧
      s2.agent_calls = sc.synthetic_user.max_turns ∧
      s2.turns.length = 2 * sc.synthetic_user.max_turns + 1) := by
  have hres := runLoop_ok_inv c sc.synthetic_user.max_turns (initState c) s2 r haux
    (initState_inv c)
  obtain ⟨hpre, hag, hmax, hloop, hcritI⟩ := hres
  have h0 : (initState c).respond_calls = 0 := rfl
  rcases runLoop_ok_reason c sc.synthetic_user.max_turns (initState c) s2 r haux with
    hr | hr | hr
  · obtain ⟨hinv, hrc⟩ := hmax hr
    have hlen := hinv.len_eq
    have hagr := hinv.agent_eq
    refine ⟨hpre, hinv.acount, by omega, hinv.alt, hinv.user_tc, hinv.tc_eq, hinv.tok_eq,
      hinv.resp_ok, ?_⟩
    intro _
    refine ⟨by omega, by omega, by omega⟩
  · have hinv := hcritI hr
    refine ⟨hpre, hinv.acount, by omega, hinv.alt, hinv.user_tc, hinv.tc_eq, hinv.tok_eq,
      hinv.resp_ok, ?_⟩
    intro hmx
    rw [hr] at hmx
    exact absurd hmx (by decide)
  · have hinv := hloop hr
    refine ⟨hpre, hinv.acount, by omega, hinv.alt, hinv.user_tc, hinv.tc_eq, hinv.tok_eq,
      hinv.resp_ok, ?_⟩
    intro hmx
    rw [hr] at hmx
    exact absurd hmx (by decide)

/-- Claim C2, counterexample: a transcript of three user-role turns with
byte-for-byte identical contents has 3 user turns whose last 3 are
identical, yet `_detect_loop` returns false, because its
`len(turns) < 4` guard fires first.  The claim as stated (true iff the
last 3 user contents are identical, whenever there are 3 or more user
turns) is therefore false of the code. -/
theorem C2_claim_counterexample :
    (userMessages threeIdenticalUserTurns).length = 3 ∧
    (∃ m, (userMessages threeIdenticalUserTurns).drop
        ((userMessages threeIdenticalUserTurns).length - 3) = [m, m, m]) ∧
    detect_loop threeIdenticalUserTurns = false :=
  ⟨rfl, ⟨"x", rfl⟩, rfl⟩

/-- Claim C2 (amended): `_detect_loop` returns true exactly when the
transcript has at least 4 total turns AND the last 3 user-role contents
exist and are byte-for-byte identical; in particular it returns false
whenever there are fewer than 3 user turns, and also on the 3-identical
case when the whole transcript is shorter than 4 turns. -/
theorem C2_loop_detector_amended :
    ∀ turns : List ConversationTurn,
      detect_loop turns = true ↔
        (4 ≤ turns.length ∧
          ∃ m, (userMessages turns).drop ((userMessages turns).length - 3) = [m, m, m]) := by
  intro turns
  rw [detect_loop_eq]
  by_cases h4 : turns.length < 4
  · rw [if_pos h4]
    constructor
    · intro hf
      exact absurd hf (by simp)
    · intro hr
      exact absurd hr.1 (by omega)
  · rw [if_neg h4]
    by_cases h3 : (userMessages turns).length < 3
    · rw [if_pos h3]
      constructor
      · intro hf
        exact absurd hf (by simp)
      · rintro ⟨h4b, m, hm⟩
        have hzero : (userMessages turns).length - 3 = 0 := by omega
        rw [hzero, List.drop_zero] at hm
        have hlen3 := congrArg List.length hm
        simp at hlen3
        omega
    · rw [if_neg h3]
      have hwin : ((userMessages turns).drop ((userMessages turns).length - 3)).length = 3 := by
        rw [List.length_drop]
        omega
      rw [beq_iff_eq, dedup_length_one_iff_len3 _ hwin]
      constructor
      · intro hex
        exact ⟨by omega, hex⟩
      · intro hr
        exact hr.2

/-- Claim C3: for every run of the conversation loop that returns an
outcome, the number of assistant turns (one per `agent.send_message`
call) never exceeds `scenario.synthetic_user.max_turns`; and when the
judge never reports the criteria met and the run does not terminate by
loop detection, the run takes exactly `max_turns` agent turns and the
termination reason is `max_turns`. -/
theorem C3_budget_respected :
    ∀ (c : Collaborators) (sc : TestScenario) (res : ConversationResult),
      run_conversation c sc = Except.ok res →
      assistantCount res.turns ≤ sc.synthetic_user.max_turns ∧
      ((∀ i cr, c.check_criteria i = Except.ok cr → cr.all_criteria_met = false) →
        res.termination_reason ≠ TerminationReason.loop_detected →
        assistantCount res.turns = sc.synthetic_user.max_turns ∧
        res.termination_reason = TerminationReason.max_turns) := by
  intro c sc res h
  obtain ⟨s2, r, haux, hturns, htcr, htokr, hreason, hfa⟩ := run_conversation_ok_elim h
  obtain ⟨hpre, hac, hagle, halt, hutc, htce, htoke, hrok, hmaxf⟩ :=
    runConversationAux_facts haux
  constructor
  · rw [hturns, hac]
    exact hagle
  · intro hnm hnl
    have hrm : r = TerminationReason.max_turns := by
      rcases runLoop_ok_reason c sc.synthetic_user.max_turns (initState c) s2 r haux with
        h1 | h1 | h1
      · exact h1
      · exact absurd h1 (runLoop_never_met hnm sc.synthetic_user.max_turns (initState c) s2 r haux)
      · exfalso
        exact hnl (by rw [hreason, h1])
    obtain ⟨hrc, hage, hlen⟩ := hmaxf hrm
    constructor
    · rw [hturns, hac]
      exact hage
    · rw [hreason, hrm]

/-- Claim C3, witness: on the concrete collaborators `cEx` (judge never
satisfied) with a budget of 2, the run takes exactly 2 assistant turns
and terminates with `max_turns`. -/
theorem C3_budget_respected_witness :
    run_conversation cEx scEx = Except.ok resEx ∧
    assistantCount resEx.turns ≤ scEx.synthetic_user.max_turns ∧
    assistantCount resEx.turns = scEx.synthetic_user.max_turns ∧
    resEx.termination_reason = TerminationReason.max_turns := by
  have hnm : ∀ i cr, cEx.check_criteria i = Except.ok cr → cr.all_criteria_met = false := by
    intro i cr hcr
    have h2 := hcr
    simp only [cEx, Except.ok.injEq] at h2
    rw [← h2]
  have h := C3_budget_respected cEx scEx resEx rfl
  have h2 := h.2 hnm (by decide)
  exact ⟨rfl, h.1, h2.1, h2.2⟩

/-- Claim C7: for every run that returns an outcome, `total_tool_calls`
is the concatenation, in turn order, of the `tool_calls` lists of the
assistant turns of the transcript. -/
theorem C7_tool_call_flattening :
    ∀ (c : Collaborators) (sc : TestScenario) (res : ConversationResult),
      run_conversation c sc = Except.ok res →
      res.total_tool_calls =
        ((res.turns.filter (fun t => t.role == "assistant")).map
          (fun t => t.tool_calls)).flatten := by
  intro c sc res h
  obtain ⟨s2, r, haux, hturns, htcr, htokr, hreason, hfa⟩ := run_conversation_ok_elim h
  obtain ⟨hpre, hac, hagle, halt, hutc, htce, htoke, hrok, hmaxf⟩ :=
    runConversationAux_facts haux
  rw [htcr, hturns, htce]
  rfl

/-- Claim C7, witness: on the concrete budget-exhausting run, the
flattened tool-call list of the outcome matches the assistant turns'
tool calls in turn order. -/
theorem C7_tool_call_flattening_witness :
    run_conversation cEx scEx = Except.ok resEx ∧
    resEx.total_tool_calls =
      ((resEx.turns.filter (fun t => t.role == "assistant")).map
        (fun t => t.tool_calls)).flatten :=
  ⟨rfl, C7_tool_call_flattening cEx scEx resEx rfl⟩

/-- Claim C8: every pair actually returned by `run` carries a
conversation whose termination reason is `criteria_met`, `max_turns` or
`loop_detected`, and never the declared-but-unreachable `error` value
(a failed run raises instead of returning). -/
theorem C8_no_error_reason :
    ∀ (c : Collaborators) (sc : TestScenario) (cres : ConversationResult)
      (jres : JudgmentResult),
      run c sc = Except.ok (cres, jres) →
      cres.termination_reason ≠ TerminationReason.error ∧
      (cres.termination_reason = TerminationReason.criteria_met ∨
       cres.termination_reason = TerminationReason.max_turns ∨
       cres.termination_reason = TerminationReason.loop_detected) := by
  intro c sc cres jres h
  obtain ⟨hrc, heval⟩ := run_ok_elim h
  obtain ⟨s2, r, haux, hturns, htcr, htokr, hreason, hfa⟩ := run_conversation_ok_elim hrc
  rcases runLoop_ok_reason c sc.synthetic_user.max_turns (initState c) s2 r haux with
    h1 | h1 | h1
  · refine ⟨?_, Or.inr (Or.inl ?_)⟩
    · rw [hreason, h1]
      decide
    · rw [hreason, h1]
  · refine ⟨?_, Or.inl ?_⟩
    · rw [hreason, h1]
      decide
    · rw [hreason, h1]
  · refine ⟨?_, Or.inr (Or.inr ?_)⟩
    · rw [hreason, h1]
      decide
    · rw [hreason, h1]

/-- Claim C8, witness: the concrete budget-exhausting run returns a pair
whose termination reason is `max_turns`, not `error`. -/
theorem C8_no_error_reason_witness :
    run cEx scEx = Except.ok (resEx, { passed := false, reasoning := "incomplete" }) ∧
    resEx.termination_reason ≠ TerminationReason.error ∧
    (resEx.termination_reason = TerminationReason.criteria_met ∨
     resEx.termination_reason = TerminationReason.max_turns ∨
     resEx.termination_reason = TerminationReason.loop_detected) := by
  have h := C8_no_error_reason cEx scEx resEx
    { passed := false, reasoning := "incomplete" } rfl
  exact ⟨rfl, h.1, h.2⟩

/-- Claim C1, counterexample: with collaborators whose `judge.evaluate`
raises a `JudgmentError`, `run` fails fatally but re-raises that
exception as-is: the error reaching the caller has kind "JudgmentError",
not the orchestration-level kind "OrchestrationError", because
orchestrator.py line 66 calls `evaluate` outside any try block. -/
theorem C1_claim_counterexample :
    run cEvalFail scMet = Except.error { kind := "JudgmentError", msg := "judge crashed" } ∧
    ({ kind := "JudgmentError", msg := "judge crashed" } : PyException).kind ≠
      "OrchestrationError" :=
  ⟨rfl, by decide⟩

/-- Claim C1 (amended): every error raised by `run` comes from a
collaborator call and is fatal; an exception from `agent.send_message`,
`judge.check_criteria` or `synthetic_user.respond` reaches the caller
wrapped into `OrchestrationError` with the corresponding message prefix,
while an exception from `judge.evaluate` reaches the caller unwrapped. -/
theorem C1_failure_handling_amended :
    ∀ (c : Collaborators) (sc : TestScenario) (e : PyException),
      run c sc = Except.error e →
      ((∃ e0 i, c.send_message i = Except.error e0 ∧ e = wrapAgentError e0) ∨
       (∃ e0 i, c.check_criteria i = Except.error e0 ∧ e = wrapJudgeError e0) ∨
       (∃ e0 i, c.respond i = Except.error e0 ∧ e = wrapUserError e0) ∨
       c.evaluate = Except.error e) ∧
      (e.kind = "OrchestrationError" ∨ c.evaluate = Except.error e) := by
  intro c sc e h
  rcases run_error_elim h with hrc | ⟨cr2, hok, heval⟩
  · have haux := run_conversation_error_elim hrc
    have hcls := runLoop_error_classify c sc.synthetic_user.max_turns (initState c) e haux
    rcases hcls with ⟨e0, i, he, hw⟩ | ⟨e0, i, he, hw⟩ | ⟨e0, i, he, hw⟩
    · exact ⟨Or.inl ⟨e0, i, he, hw⟩, Or.inl (by rw [hw]; rfl)⟩
    · exact ⟨Or.inr (Or.inl ⟨e0, i, he, hw⟩), Or.inl (by rw [hw]; rfl)⟩
    · exact ⟨Or.inr (Or.inr (Or.inl ⟨e0, i, he, hw⟩)), Or.inl (by rw [hw]; rfl)⟩
  · exact ⟨Or.inr (Or.inr (Or.inr heval)), Or.inr heval⟩

/-- Claim C1 (amended), witness: on the concrete collaborators whose
`evaluate` raises, the classification identifies the raw `evaluate`
exception. -/
theorem C1_failure_handling_amended_witness :
    ∃ e, run cEvalFail scMet = Except.error e ∧
      (((∃ e0 i, cEvalFail.send_message i = Except.error e0 ∧ e = wrapAgentError e0) ∨
        (∃ e0 i, cEvalFail.check_criteria i = Except.error e0 ∧ e = wrapJudgeError e0) ∨
        (∃ e0 i, cEvalFail.respond i = Except.error e0 ∧ e = wrapUserError e0) ∨
        cEvalFail.evaluate = Except.error e) ∧
       (e.kind = "OrchestrationError" ∨ cEvalFail.evaluate = Except.error e)) :=
  ⟨{ kind := "JudgmentError", msg := "judge crashed" }, rfl,
    C1_failure_handling_amended cEvalFail scMet _ rfl⟩

/-- Claim C4: a run that terminates by exhausting the turn budget
reports as `final_answer` the content of the most recent assistant turn,
found by searching the transcript in reverse for an assistant-role turn
(such a turn exists because the budget is at least 1). -/
theorem C4_final_answer_search :
    ∀ (c : Collaborators) (sc : TestScenario) (res : ConversationResult),
      1 ≤ sc.synthetic_user.max_turns →
      run_conversation c sc = Except.ok res →
      res.termination_reason = TerminationReason.max_turns →
      ∃ t, res.turns.reverse.find? (fun t2 => t2.role == "assistant") = some t ∧
        t.role = "assistant" ∧ res.final_answer = t.content := by
  intro c sc res hmx h hterm
  obtain ⟨s2, r, haux, hturns, htcr, htokr, hreason, hfa⟩ := run_conversation_ok_elim h
  have hrm : r = TerminationReason.max_turns := by
    rw [← hreason]
    exact hterm
  obtain ⟨hpre, hac, hagle, halt, hutc, htce, htoke, hrok, hmaxf⟩ :=
    runConversationAux_facts haux
  obtain ⟨hrc, hage, hlen⟩ := hmaxf hrm
  have h1lt : 1 < s2.turns.length := by omega
  have hrole1 : (s2.turns.get ⟨1, h1lt⟩).role = "assistant" := by
    have h2 := alternatingRoles_get halt 1 h1lt
    simpa [roleAt] using h2
  have hmem : s2.turns.get ⟨1, h1lt⟩ ∈ s2.turns := List.get_mem s2.turns _ _
  rw [hturns]
  cases hf : s2.turns.reverse.find? (fun t2 => t2.role == "assistant") with
  | none =>
    exfalso
    have hnone := List.find?_eq_none.mp hf (s2.turns.get ⟨1, h1lt⟩)
      (List.mem_reverse.mpr hmem)
    apply hnone
    simp only [List.get_eq_getElem] at hrole1
    simp [hrole1]
  | some t =>
    have hpt := List.find?_some hf
    have htrole : t.role = "assistant" := by simpa using hpt
    refine ⟨t, rfl, htrole, ?_⟩
    have hne : s2.turns ≠ [] := by
      intro hemp
      rw [hemp] at hlen
      simp at hlen
    rw [hfa, if_pos ⟨hrm, hne⟩, hf]

/-- Claim C4, witness: the concrete budget-exhausting run with budget 2
ends on a user turn, and the backward search finds the second assistant
turn as the final answer. -/
theorem C4_final_answer_search_witness :
    1 ≤ scEx.synthetic_user.max_turns ∧
    run_conversation cEx scEx = Except.ok resEx ∧
    resEx.termination_reason = TerminationReason.max_turns ∧
    (∃ t, resEx.turns.reverse.find? (fun t2 => t2.role == "assistant") = some t ∧
      t.role = "assistant" ∧ resEx.final_answer = t.content) :=
  ⟨by decide, rfl, rfl, C4_final_answer_search cEx scEx resEx (by decide) rfl rfl⟩

/-- Claim C6: for every run returning an outcome, `total_tokens` equals
the sum of `tokens_used` over exactly the `respond` calls the loop
issued (`respond_calls` many, all of which succeeded); the judge's token
usage never enters the sum. -/
theorem C6_token_accumulation :
    ∀ (c : Collaborators) (sc : TestScenario) (s2 : LoopState) (r : TerminationReason)
      (res : ConversationResult),
      runConversationAux c sc = Except.ok (s2, r) →
      run_conversation c sc = Except.ok res →
      res.total_tokens = tokenSum c s2.respond_calls ∧
      (∀ i, i < s2.respond_calls → ∃ ur, c.respond i = Except.ok ur) := by
  intro c sc s2 r res haux h
  obtain ⟨s3, r3, haux3, hturns, htcr, htokr, hreason, hfa⟩ := run_conversation_ok_elim h
  rw [haux] at haux3
  simp only [Except.ok.injEq, Prod.mk.injEq] at haux3
  obtain ⟨hs, hr⟩ := haux3
  subst hs
  obtain ⟨hpre, hac, hagle, halt, hutc, htce, htoke, hrok, hmaxf⟩ :=
    runConversationAux_facts haux
  constructor
  · rw [htokr]
    exact htoke
  · exact hrok

/-- Claim C6, witness: the concrete budget-exhausting run issues 2
`respond` calls of 10 tokens each, and the outcome reports their sum. -/
theorem C6_token_accumulation_witness :
    runConversationAux cEx scEx = Except.ok (sEx, TerminationReason.max_turns) ∧
    run_conversation cEx scEx = Except.ok resEx ∧
    resEx.total_tokens = tokenSum cEx sEx.respond_calls ∧
    (∀ i, i < sEx.respond_calls → ∃ ur, cEx.respond i = Except.ok ur) := by
  have h := C6_token_accumulation cEx scEx sEx TerminationReason.max_turns resEx rfl rfl
  exact ⟨rfl, rfl, h.1, h.2⟩

/-- Claim C5: the transcript built by the loop is append-only (the turn
list at any point is a prefix of every later one), and every returned
outcome starts with the seeded user turn carrying the initial query,
strictly alternates user/assistant roles (user at even positions), and
gives every user turn an empty tool-call list. -/
theorem C5_turn_ordering :
    (∀ (c : Collaborators) (n : Nat) (s s2 : LoopState) (r : TerminationReason),
      runLoop c n s = Except.ok (s2, r) → s.turns <+: s2.turns) ∧
    (∀ (c : Collaborators) (sc : TestScenario) (res : ConversationResult),
      run_conversation c sc = Except.ok res →
      res.turns.head? = some { role := "user", content := c.initial_query, tool_calls := [], timestamp := 1 } ∧
      (∀ (i : Nat) (hi : i < res.turns.length), (res.turns.get ⟨i, hi⟩).role = roleAt i) ∧
      (∀ t ∈ res.turns, t.role = "user" → t.tool_calls = [])) := by
  constructor
  · intro c
    exact runLoop_turns_mono c
  · intro c sc res h
    obtain ⟨s2, r, haux, hturns, htcr, htokr, hreason, hfa⟩ := run_conversation_ok_elim h
    obtain ⟨hpre, hac, hagle, halt, hutc, htce, htoke, hrok, hmaxf⟩ :=
      runConversationAux_facts haux
    rw [← hturns] at halt hutc
    refine ⟨?_, ?_, hutc⟩
    · obtain ⟨t2, ht2⟩ := hpre
      rw [hturns, ← ht2]
      rfl
    · intro i hi
      simpa using alternatingRoles_get halt i hi

/-- Claim C5, witness: the concrete budget-exhausting run produces the
5-turn transcript user, assistant, user, assistant, user seeded with the
query "hello". -/
theorem C5_turn_ordering_witness :
    run_conversation cEx scEx = Except.ok resEx ∧
    (resEx.turns.head? = some { role := "user", content := cEx.initial_query, tool_calls := [], timestamp := 1 } ∧
      (∀ (i : Nat) (hi : i < resEx.turns.length), (resEx.turns.get ⟨i, hi⟩).role = roleAt i) ∧
      (∀ t ∈ resEx.turns, t.role = "user" → t.tool_calls = [])) :=
  ⟨rfl, C5_turn_ordering.2 cEx scEx resEx rfl⟩

/-- Claim C9: when the judge accepts right after the first agent turn
(and the budget permits at least one turn), the outcome has exactly the
seeded user turn followed by one assistant turn, terminates with
`criteria_met`, reports the agent's reply as the final answer, and the
synthetic user's `respond` is never called. -/
theorem C9_immediate_criteria_met :
    ∀ (c : Collaborators) (sc : TestScenario) (ar : AgentResponse) (cr : CriteriaCheckResult),
      1 ≤ sc.synthetic_user.max_turns →
      c.send_message 0 = Except.ok ar →
      c.check_criteria 0 = Except.ok cr →
      cr.all_criteria_met = true →
      ∃ res, run_conversation c sc = Except.ok res ∧
        runConversationAux c sc =
          Except.ok (stepCrit (initState c) ar, TerminationReason.criteria_met) ∧
        (stepCrit (initState c) ar).respond_calls = 0 ∧
        res.turns.map (fun t => t.role) = ["user", "assistant"] ∧
        res.turns.map (fun t => t.content) = [c.initial_query, ar.message] ∧
        res.termination_reason = TerminationReason.criteria_met ∧
        res.final_answer = ar.message := by
  intro c sc ar cr hmx hsend hcrit hmet
  obtain ⟨m, hm⟩ : ∃ m, sc.synthetic_user.max_turns = m + 1 :=
    ⟨sc.synthetic_user.max_turns - 1, by omega⟩
  have hstep : loopStep c (initState c) =
      StepOutcome.stop (stepCrit (initState c) ar) TerminationReason.criteria_met := by
    simp [loopStep, initState, stepCrit, agentTurn, hsend, hcrit, hmet]
  have haux : runConversationAux c sc =
      Except.ok (stepCrit (initState c) ar, TerminationReason.criteria_met) := by
    unfold runConversationAux
    rw [hm]
    simp [runLoop, hstep]
  have hcond : ¬(TerminationReason.criteria_met = TerminationReason.max_turns ∧
      (stepCrit (initState c) ar).turns ≠ []) := by
    intro hc
    exact absurd hc.1 (by decide)
  have hex : ∃ res, run_conversation c sc = Except.ok res := by
    unfold run_conversation
    rw [haux]
    exact ⟨_, rfl⟩
  obtain ⟨res, hrun⟩ := hex
  obtain ⟨s2, r2, haux2, hturns, htcr, htokr, hreason, hfa⟩ := run_conversation_ok_elim hrun
  rw [haux] at haux2
  simp only [Except.ok.injEq, Prod.mk.injEq] at haux2
  obtain ⟨hs, hr⟩ := haux2
  refine ⟨res, hrun, haux, rfl, ?_, ?_, ?_, ?_⟩
  · rw [hturns, ← hs]
    simp [stepCrit, initState, agentTurn]
  · rw [hturns, ← hs]
    simp [stepCrit, initState, agentTurn]
  · rw [hreason, ← hr]
  · rw [hfa, ← hr, ← hs, if_neg hcond]
    rfl

/-- Claim C9, witness: on the concrete collaborators whose judge accepts
immediately and a budget of 5, the run stops after one agent turn with
two turns in the transcript and no `respond` call. -/
theorem C9_immediate_criteria_met_witness :
    1 ≤ scMet.synthetic_user.max_turns ∧
    (∃ res, run_conversation cMet scMet = Except.ok res ∧
      runConversationAux cMet scMet =
        Except.ok (stepCrit (initState cMet) { message := "the answer" },
          TerminationReason.criteria_met) ∧
      (stepCrit (initState cMet) { message := "the answer" }).respond_calls = 0 ∧
      res.turns.map (fun t => t.role) = ["user", "assistant"] ∧
      res.turns.map (fun t => t.content) =
        [cMet.initial_query, ({ message := "the answer" } : AgentResponse).message] ∧
      res.termination_reason = TerminationReason.criteria_met ∧
      res.final_answer = ({ message := "the answer" } : AgentResponse).message) :=
  ⟨by decide, C9_immediate_criteria_met cMet scMet { message := "the answer" }
    ⟨true, [("c", true)], "done"⟩ (by decide) rfl rfl rfl⟩

/-- Claim C10: a run that exhausts the turn budget (criteria never met,
no loop detected) issues exactly `max_turns` calls to `respond`, so the
transcript has `2 * max_turns + 1` turns and ends on a user turn. -/
theorem C10_budget_termination_shape :
    ∀ (c : Collaborators) (sc : TestScenario) (s2 : LoopState) (r : TerminationReason)
      (res : ConversationResult),
      runConversationAux c sc = Except.ok (s2, r) →
      run_conversation c sc = Except.ok res →
      (∀ i cr, c.check_criteria i = Except.ok cr → cr.all_criteria_met = false) →
      r ≠ TerminationReason.loop_detected →
      s2.respond_calls = sc.synthetic_user.max_turns ∧
      res.turns.length = 2 * sc.synthetic_user.max_turns + 1 ∧
      ∃ hne : res.turns ≠ [], (res.turns.getLast hne).role = "user" := by
  intro c sc s2 r res haux h hnm hnl
  have hrm : r = TerminationReason.max_turns := by
    rcases runLoop_ok_reason c sc.synthetic_user.max_turns (initState c) s2 r haux with
      h1 | h1 | h1
    · exact h1
    · exact absurd h1
        (runLoop_never_met hnm sc.synthetic_user.max_turns (initState c) s2 r haux)
    · exact absurd h1 hnl
  obtain ⟨hpre, hac, hagle, halt, hutc, htce, htoke, hrok, hmaxf⟩ :=
    runConversationAux_facts haux
  obtain ⟨hrc, hage, hlen⟩ := hmaxf hrm
  obtain ⟨s3, r3, haux3, hturns, htcr, htokr, hreason, hfa⟩ := run_conversation_ok_elim h
  rw [haux] at haux3
  simp only [Except.ok.injEq, Prod.mk.injEq] at haux3
  have hturns2 : res.turns = s2.turns := by
    rw [hturns, ← haux3.1]
  have hlen2 : res.turns.length = 2 * sc.synthetic_user.max_turns + 1 := by
    rw [hturns2]
    exact hlen
  refine ⟨hrc, hlen2, ?_⟩
  have hlp : 0 < res.turns.length := by omega
  have hne : res.turns ≠ [] := List.length_pos.mp hlp
  refine ⟨hne, ?_⟩
  have hlast := List.getLast_eq_getElem res.turns hne
  rw [hlast]
  have halt2 : alternatingRoles res.turns 0 := by
    rw [hturns2]
    exact halt
  have hrole := alternatingRoles_get halt2 (res.turns.length - 1) (by omega)
  have hval : roleAt (0 + (res.turns.length - 1)) = "user" := roleAt_even (by omega)
  exact hrole.trans hval

/-- Claim C10, witness: the concrete budget-2 run calls `respond` twice
and returns a 5-turn transcript whose last turn is a user turn. -/
theorem C10_budget_termination_shape_witness :
    runConversationAux cEx scEx = Except.ok (sEx, TerminationReason.max_turns) ∧
    run_conversation cEx scEx = Except.ok resEx ∧
    sEx.respond_calls = scEx.synthetic_user.max_turns ∧
    resEx.turns.length = 2 * scEx.synthetic_user.max_turns + 1 ∧
    ∃ hne : resEx.turns ≠ [], (resEx.turns.getLast hne).role = "user" := by
  have hnm : ∀ i cr, cEx.check_criteria i = Except.ok cr → cr.all_criteria_met = false := by
    intro i cr hcr
    have h2 := hcr
    simp only [cEx, Except.ok.injEq] at h2
    rw [← h2]
  have h := C10_budget_termination_shape cEx scEx sEx TerminationReason.max_turns resEx
    rfl rfl hnm (by decide)
  exact ⟨rfl, rfl, h.1, h.2.1, h.2.2⟩
